import Mathlib

/-!
Verification of the record model, settings defaults and Bangumi variant
selection of the obsidian-media-db-plugin repository.

The embedding models JavaScript runtime values shallowly: an object is an
association list of string keys and `JSValue`s kept in insertion order
(JavaScript enumeration order for non-numeric string keys), property
assignment overwrites in place, and spread (`{...a, ...b}`) folds the second
object's entries over the first with overwriting assignment.
-/

namespace MediaDb

/-- JavaScript runtime values as they occur in this plugin's records: strings,
numbers, booleans, ordered sequences of strings, `undefined`, `null`, and
plain objects (association lists in insertion order). -/
inductive JSValue where
  | vstr : String → JSValue
  | vnum : Int → JSValue
  | vbool : Bool → JSValue
  | varr : List String → JSValue
  | vundef : JSValue
  | vnull : JSValue
  | vobj : List (String × JSValue) → JSValue

/-- A JavaScript object: keys with values, in insertion order. -/
abbrev JSObj := List (String × JSValue)

/-- Property read: the value at the first occurrence of the key, if any. -/
def getProp : JSObj → String → Option JSValue
  | [], _ => none
  | (k', v) :: rest, k => if k' = k then some v else getProp rest k

/-- `Object.prototype.hasOwnProperty`. -/
def hasOwn (o : JSObj) (k : String) : Bool :=
  (getProp o k).isSome

/-- Property assignment: overwrite the first occurrence in place, else append
(JavaScript keeps the original insertion position when overwriting). -/
def setProp : JSObj → String → JSValue → JSObj
  | [], k, v => [(k, v)]
  | (k', v') :: rest, k, v =>
    if k' = k then (k, v) :: rest else (k', v') :: setProp rest k v

/-- `delete o[k]`: remove the key (objects built here never repeat a key, so
removing every occurrence coincides with JavaScript's single removal). -/
def deleteProp : JSObj → String → JSObj
  | [], _ => []
  | (k', v) :: rest, k =>
    if k' = k then deleteProp rest k else (k', v) :: deleteProp rest k

/-- Spread `{...a, ...b}`: assign every entry of `b` over `a`, in order. -/
def spreadAll (a b : JSObj) : JSObj :=
  b.foldl (fun acc p => setProp acc p.1 p.2) a

/-- The keys of an object, in order. -/
def keysOf (o : JSObj) : List String :=
  o.map Prod.fst

/-- Modelled from the spec: the media-kind discriminant enumeration
(`src/utils/MediaType.ts` is not under `src/`); the spec fixes the kinds as
movie, series, game, book, comic/manga, music release, board game and wiki. -/
inductive MediaType where
  | movie
  | series
  | comicManga
  | game
  | boardgame
  | musicRelease
  | book
  | wiki
deriving DecidableEq

/-- Modelled from the spec: the string carried by each `MediaType` enum value,
as used by the variant constructors (`this.type = this.getMediaType()`) and the
Bangumi adapters' `typeMappings`. -/
def MediaType.value : MediaType → String
  | .movie => "movie"
  | .series => "series"
  | .comicManga => "comicManga"
  | .game => "game"
  | .boardgame => "boardgame"
  | .musicRelease => "musicRelease"
  | .book => "book"
  | .wiki => "wiki"

/-- Modelled from the spec: the constant "media-db" marker tag
(`mediaDbTag` lives in `src/utils/Utils.ts`, which is not under `src/`). -/
def mediaDbTag : String := "media-db"

/-!
Field-wise migration helpers. `migrateObject` itself lives in
`src/utils/Utils.ts`, which is not under `src/`; the helpers below are
modelled from the spec (§4.2): a field present in both the source object and
the reference keeps the source's value when it is type-compatible with the
reference's declared field type, and otherwise (absent or mistyped) receives
the reference's default.
-/

/-- Modelled from the spec: migrate a declared `string` field. -/
def pickStr (o : JSObj) (k : String) (d : String) : String :=
  match getProp o k with
  | some (.vstr s) => s
  | _ => d

/-- Modelled from the spec: migrate a declared `string[]` field. -/
def pickArr (o : JSObj) (k : String) (d : List String) : List String :=
  match getProp o k with
  | some (.varr xs) => xs
  | _ => d

/-- Modelled from the spec: migrate a declared `number` field. -/
def pickNum (o : JSObj) (k : String) (d : Int) : Int :=
  match getProp o k with
  | some (.vnum n) => n
  | _ => d

/-- Modelled from the spec: migrate a declared `boolean` field. -/
def pickBool (o : JSObj) (k : String) (d : Bool) : Bool :=
  match getProp o k with
  | some (.vbool b) => b
  | _ => d

/-- Modelled from the spec: migrate a declared `string | undefined` field whose
default is `undefined` (`none`). -/
def pickOptStr (o : JSObj) (k : String) : Option String :=
  match getProp o k with
  | some (.vstr s) => some s
  | _ => none

/-- Modelled from the spec: migrate a declared `string[] | undefined` field
whose default is `undefined` (`none`). -/
def pickOptArr (o : JSObj) (k : String) : Option (List String) :=
  match getProp o k with
  | some (.varr xs) => some xs
  | _ => none

/-- Modelled from the spec: migrate a declared object-valued field. -/
def pickObj (o : JSObj) (k : String) (d : JSObj) : JSObj :=
  match getProp o k with
  | some (.vobj u) => u
  | _ => d

/-- The `GameModel` variant instance after construction
(`src/models/GameModel.ts` plus the base fields of
`src/models/MediaTypeModel.ts`). Fields are listed in JavaScript property
insertion order: the base-class constructor's assignments first, then the
fields first assigned in `GameModel`'s own constructor. `userData` is kept as
a raw object because the constructor adopts the input's `userData` object
wholesale when one is present. -/
structure GameModel where
  type : String
  subType : String
  title : String
  englishTitle : String
  year : String
  dataSource : String
  url : String
  id : String
  apiTags : List String
  genres : List String
  userData : JSObj
  personalRating : Option String
  personalStatus : Option String
  personalTags : Option (List String)
  tags : List String
  onlineRating : Int
  platforms : List String
  developers : List String
  publishers : List String
  music : List String
  image : String
  website : String
  description : String
  released : Bool
  releaseDate : String

/-- The declared default of `GameModel`'s `userData` sub-object:
`{ played: false, personalRating: 0, personalStatus: undefined,
personalTags: undefined }` (GameModel.ts lines 47-52). -/
def defaultGameUserData : JSObj :=
  [("played", .vbool false), ("personalRating", .vnum 0),
   ("personalStatus", .vundef), ("personalTags", .vundef)]

/-- Encoding of an optional string field as the JavaScript property value it
holds on the instance (`undefined` when unset). -/
def encOptStr : Option String → JSValue
  | none => .vundef
  | some s => .vstr s

/-- Encoding of an optional string-array field as the JavaScript property
value it holds on the instance (`undefined` when unset). -/
def encOptArr : Option (List String) → JSValue
  | none => .vundef
  | some xs => .varr xs

/-- The legacy branch `migrateObject(this.userData, obj, this.userData)`
executed when the input has no `userData` key (GameModel.ts lines 56-58): each
field of `userData` is migrated from the input's same-named top-level field. -/
def migrateGameUserDataFromTop (o : JSObj) : JSObj :=
  [("played", .vbool (pickBool o "played" false)),
   ("personalRating", .vnum (pickNum o "personalRating" 0)),
   ("personalStatus", encOptStr (pickOptStr o "personalStatus")),
   ("personalTags", encOptArr (pickOptArr o "personalTags"))]

/-- The `GameModel` constructor (GameModel.ts lines 30-61): set the declared
defaults, run `migrateObject(this, obj, this)` over every declared field, run
the legacy `userData` migration when the input has no `userData` key, and
finally force `this.type = this.getMediaType()`. -/
def mkGameModel (o : JSObj) : GameModel :=
  let ud :=
    if hasOwn o "userData" then pickObj o "userData" defaultGameUserData
    else migrateGameUserDataFromTop o
  { type := MediaType.game.value
    subType := pickStr o "subType" ""
    title := pickStr o "title" ""
    englishTitle := pickStr o "englishTitle" ""
    year := pickStr o "year" ""
    dataSource := pickStr o "dataSource" ""
    url := pickStr o "url" ""
    id := pickStr o "id" ""
    apiTags := pickArr o "apiTags" []
    genres := pickArr o "genres" []
    userData := ud
    personalRating := pickOptStr o "personalRating"
    personalStatus := pickOptStr o "personalStatus"
    personalTags := pickOptArr o "personalTags"
    tags := pickArr o "tags" []
    onlineRating := pickNum o "onlineRating" 0
    platforms := pickArr o "platforms" []
    developers := pickArr o "developers" []
    publishers := pickArr o "publishers" []
    music := pickArr o "music" []
    image := pickStr o "image" ""
    website := pickStr o "website" ""
    description := pickStr o "description" ""
    released := pickBool o "released" false
    releaseDate := pickStr o "releaseDate" "" }

/-- `getTags()` for games: the media-db marker plus the kind label
(GameModel.ts lines 63-65). -/
def getTags (_ : GameModel) : List String :=
  [mediaDbTag, "game"]

/-- `getMediaType()` for games (GameModel.ts lines 67-69). -/
def getMediaType (_ : GameModel) : MediaType :=
  MediaType.game

/-- `getSummary()` for games: `this.englishTitle + ' (' + this.year + ')'`
(GameModel.ts lines 71-73). -/
def getSummary (g : GameModel) : String :=
  g.englishTitle ++ " (" ++ g.year ++ ")"

/-- The constructed instance viewed as the JavaScript object it is: every own
property in insertion order (base-class assignments first, then the
subclass's new properties; re-assignments keep the original position). -/
def gameInstanceObj (g : GameModel) : JSObj :=
  [("type", .vstr g.type), ("subType", .vstr g.subType), ("title", .vstr g.title),
   ("englishTitle", .vstr g.englishTitle), ("year", .vstr g.year),
   ("dataSource", .vstr g.dataSource), ("url", .vstr g.url), ("id", .vstr g.id),
   ("apiTags", .varr g.apiTags), ("genres", .varr g.genres),
   ("userData", .vobj g.userData), ("personalRating", encOptStr g.personalRating),
   ("personalStatus", encOptStr g.personalStatus),
   ("personalTags", encOptArr g.personalTags), ("tags", .varr g.tags),
   ("onlineRating", .vnum g.onlineRating), ("platforms", .varr g.platforms),
   ("developers", .varr g.developers), ("publishers", .varr g.publishers),
   ("music", .varr g.music), ("image", .vstr g.image), ("website", .vstr g.website),
   ("description", .vstr g.description), ("released", .vbool g.released),
   ("releaseDate", .vstr g.releaseDate)]

/-- `getWithOutUserData()` (MediaTypeModel.ts lines 49-53):
`structuredClone(this)` then `delete copy.userData`. At the value level the
clone is the instance object itself; the aliasing aspect of the deep copy is
modelled separately on a heap (see the `Heap` section below). -/
def getWithOutUserData (g : GameModel) : JSObj :=
  deleteProp (gameInstanceObj g) "userData"

/-- `toMetaDataObject()` (MediaTypeModel.ts lines 45-47):
`{ ...this.getWithOutUserData(), ...this.userData,
tags: this.getTags().join('/') }`. -/
def toMetaDataObject (g : GameModel) : JSObj :=
  setProp (spreadAll (getWithOutUserData g) g.userData) "tags"
    (.vstr (String.intercalate "/" (getTags g)))

/-- Modelled from the spec: the three property-mapping actions
(`settings/PropertyMapping.ts` is not under `src/`). -/
inductive PropertyMappingOption where
  | Default
  | Remap
  | Remove
deriving DecidableEq

/-- Modelled from the spec: one `PropertyMapping` entry
`{ key, newKey, mapping, locked }`; the constructor argument order
`(key, newKey, mapping, locked)` is visible at the call site in
`getDefaultSettings`. -/
structure PropertyMapping where
  key : String
  newKey : String
  mapping : PropertyMappingOption
  locked : Bool
deriving DecidableEq

/-- Modelled from the spec: a `PropertyMappingModel` owns the media kind it
governs and its ordered `PropertyMapping` entries; `new
PropertyMappingModel(mediaType)` starts with no entries. -/
structure PropertyMappingModel where
  type : String
  properties : List PropertyMapping
deriving DecidableEq

/-- `lockedPropertyMappings` (settings file, line 154). -/
def lockedPropertyMappings : List String := ["type", "id", "dataSource"]

/-- The per-kind loop body of `getDefaultSettings` (settings file, lines
161-174): enumerate the keys of the kind's default-constructed instance's
`toMetaDataObject()` and push one `PropertyMapping(key, '',
PropertyMappingOption.Default, lockedPropertyMappings.contains(key))` per key.
The default-instance key enumeration is passed in, since only the Game variant
is available under `src/`. -/
def defaultPropertyMappingModel (mediaType : String) (metadataKeys : List String) :
    PropertyMappingModel :=
  { type := mediaType
    properties :=
      metadataKeys.map fun k =>
        { key := k, newKey := "", mapping := PropertyMappingOption.Default
          locked := lockedPropertyMappings.contains k } }

/-- The key enumeration of the Game kind's default-constructed instance's
`toMetaDataObject()` — what `getDefaultSettings` iterates for
`MediaType.Game` (`createMediaTypeModelFromMediaType({}, mediaType)` builds
the variant from the empty partial input). -/
def gameDefaultMetadataKeys : List String :=
  keysOf (toMetaDataObject (mkGameModel []))

/-!
Variant selection in the two Bangumi adapters' `getById`.  Both functions
below model only the media-kind selection and its error behaviour — the
surrounding HTTP fetching and model-field population are I/O glue.  Errors
(`throw new Error(...)`) are modelled as `Except.error`.
-/

/-- The media-kind selection switch of `BangumiAPI.getById` in
`src/api/apis/BangumiAPI.ts` (lines 164-185), keyed on the vendor's numeric
`result.type` and, for anime, `result.category`: book maps to comic/manga,
anime to movie or series, game to game; music, real and unknown values throw. -/
def bangumiLegacyGetByIdType (rtype : Int) (category : Int) : Except String String :=
  if rtype = 1 then .ok "comicManga"
  else if rtype = 2 then .ok (if category = 2 then "movie" else "series")
  else if rtype = 3 then .error "MDB | Music type not supported"
  else if rtype = 4 then .ok "game"
  else if rtype = 6 then .error "MDB | Real (live-action) type not supported"
  else .error "MDB | Unknown media type"

/-- The first media-kind selection switch of the proxy adapter's `getById`
(`src/unnamed/part_001`, lines 267-319), keyed on the vendor's numeric type
with refinements on `subjectData.platform` and `subjectData.eps`; it returns
the selected `MediaType` and `subType` and never fails — the `default:` branch
warns and falls back to `MediaType.Series`.  Two quirks of the source are
reproduced faithfully: in `case 2` the dangling `else` of the `OVA` branch
binds to the inner `if`, and in `case 6` the statement starting at `if
(subjectData.eps === 1)` is a separate statement following the `else if`
chain, so it always runs (forcing `Movie` whenever `eps === 1` and otherwise
overwriting the chain's `subType` unless the platform is `综艺`). -/
def bangumiProxySelect (bangumiType : Int) (platform : String) (eps : Int) :
    MediaType × Option String :=
  if bangumiType = 1 then
    (.book,
      if platform = "漫画" then some "Manga"
      else if platform = "小说" then some "Novel"
      else if platform = "画集" then some "Artbook"
      else if platform = "绘本" then some "PictureBook"
      else if platform = "公式书" then some "GuideBook"
      else if platform = "写真" then some "PhotoBook"
      else some "Other")
  else if bangumiType = 2 then
    if platform = "TV" then (.series, some "TV")
    else if platform = "OVA" then
      if eps = 1 then (.movie, some "OVA") else (.series, some "OVA")
    else if platform = "WEB" then (.series, some "WEB")
    else if platform = "剧场版" then (.series, some "")
    else if platform = "Movie" then (.movie, some "Anime")
    else if platform = "动态漫画" then (.series, some "MotionComic")
    else (.series, some "Other")
  else if bangumiType = 3 then (.musicRelease, none)
  else if bangumiType = 4 then
    if platform = "游戏" then (.game, some "videoGame")
    else if platform = "扩展包" then (.game, some "DLC")
    else if platform = "桌游" then (.boardgame, none)
    else (.game, some "videoGame")
  else if bangumiType = 6 then
    let chain : MediaType × Option String :=
      if platform = "电影" then (.movie, none)
      else if platform = "日剧" then (.series, some "JPTV")
      else if platform = "华语剧" then (.series, some "CNTV")
      else if platform = "欧美剧" then (.series, some "ENTV")
      else if platform = "电视剧" then (.series, some "TV")
      else if platform = "演出" then (.series, some "Live")
      else (.series, none)
    if eps = 1 then (.movie, chain.2)
    else if platform = "综艺" then (chain.1, some "Show")
    else (chain.1, some "Other")
  else (.series, none)

/-- The model-construction switch of the proxy adapter's `getById`
(`src/unnamed/part_001`, lines 402-470) applied to the selected media kind:
Book, Movie, Series, Game and MusicRelease are constructed; every other
selected kind hits the `default:` branch and throws. -/
def bangumiProxyGetByIdModel (bangumiType : Int) (platform : String) (eps : Int) :
    Except String MediaType :=
  let sel := (bangumiProxySelect bangumiType platform eps).1
  match sel with
  | .book => .ok .book
  | .movie => .ok .movie
  | .series => .ok .series
  | .game => .ok .game
  | .musicRelease => .ok .musicRelease
  | _ => .error "MDB | BangumiAPI | Unrecognized or unsupported media type"

/-!
Heap model for `getWithOutUserData`'s deep copy (MediaTypeModel.ts lines
49-53).  JavaScript objects and arrays have identity; `structuredClone`
allocates fresh cells for every node of the cloned graph.  A store is a list
of cells addressed by index, a cell is either an array of strings or a plain
object whose field values are primitives or references, and allocation
appends to the store.  `structuredClone` is modelled as a fuel-bounded deep
copy (the record shapes of this plugin are at most instance → userData →
string arrays, i.e. depth 3); on exhausted fuel or a dangling reference it
allocates a fresh empty cell, so a clone never emits a reference into the
original store.
-/

/-- A field value stored on a heap cell: a primitive, or a reference to
another cell. -/
inductive HVal where
  | hstr : String → HVal
  | hnum : Int → HVal
  | hbool : Bool → HVal
  | hundef : HVal
  | href : Nat → HVal

/-- A heap cell: a string array or a plain object. -/
inductive HCell where
  | harr : List String → HCell
  | hobj : List (String × HVal) → HCell

/-- The heap: cells addressed by list index; allocation appends. -/
abbrev Store := List HCell

mutual

/-- Structured clone of one field value: primitives are copied, references are
cloned into fresh cells (a dangling reference or exhausted fuel allocates a
fresh empty array cell). -/
def cloneVal : Nat → Store → HVal → Store × HVal
  | _, s, .hstr x => (s, .hstr x)
  | _, s, .hnum n => (s, .hnum n)
  | _, s, .hbool b => (s, .hbool b)
  | _, s, .hundef => (s, .hundef)
  | 0, s, .href _ => (s ++ [.harr []], .href s.length)
  | fuel + 1, s, .href a =>
    match s[a]? with
    | none => (s ++ [.harr []], .href s.length)
    | some (.harr xs) => (s ++ [.harr xs], .href s.length)
    | some (.hobj fields) =>
      let p := cloneFields fuel s fields
      (p.1 ++ [.hobj p.2], .href p.1.length)
termination_by fuel _ _ => (fuel, 0)

/-- Structured clone of an object's field list, threading the store. -/
def cloneFields : Nat → Store → List (String × HVal) → Store × List (String × HVal)
  | _, s, [] => (s, [])
  | fuel, s, (k, v) :: rest =>
    let p := cloneVal fuel s v
    let q := cloneFields fuel p.1 rest
    (q.1, (k, p.2) :: q.2)
termination_by fuel _ l => (fuel, l.length + 1)

end

/-- Heap-level `getWithOutUserData()`: structured-clone the instance cell at
`root` and drop the `userData` key from the fresh copy; returns the extended
store and the address of the copy.  Deleting the key from the fresh cell
before it is written to the store is observationally the JavaScript
`delete copy.userData` on the fresh copy. -/
def getWithOutUserDataHeap (s : Store) (root : Nat) : Store × Nat :=
  match s[root]? with
  | some (.hobj fields) =>
    let p := cloneFields 2 s fields
    (p.1 ++ [.hobj (p.2.filter fun q => !(q.1 == "userData"))], p.1.length)
  | _ => (s ++ [.hobj []], s.length)

/-- A field value holds no reference below address `n`. -/
def HVal.RefsGE (n : Nat) : HVal → Prop
  | .href a => n ≤ a
  | _ => True

/-- A cell holds no reference below address `n`. -/
def HCell.RefsGE (n : Nat) : HCell → Prop
  | .harr _ => True
  | .hobj fields => ∀ p ∈ fields, p.2.RefsGE n

/-- Reachability between addresses through references stored in cells. -/
inductive Reach (s : Store) : Nat → Nat → Prop where
  | refl (a : Nat) : Reach s a a
  | step (a b c : Nat) (fields : List (String × HVal)) (k : String) :
      Reach s a b → s[b]? = some (.hobj fields) → (k, .href c) ∈ fields →
      Reach s a c

/-- Invariant of a single-value clone: the store is only extended, the clone
value refers only to fresh cells, and every cell at a fresh address refers
only to fresh cells. -/
def CloneValOK (fuel : Nat) : Prop :=
  ∀ (s : Store) (v : HVal),
    (∃ ext, (cloneVal fuel s v).1 = s ++ ext) ∧
    (cloneVal fuel s v).2.RefsGE s.length ∧
    (∀ i c, s.length ≤ i → (cloneVal fuel s v).1[i]? = some c → c.RefsGE s.length)

/-- Invariant of a field-list clone, mirroring `CloneValOK`. -/
def CloneFieldsOK (fuel : Nat) : Prop :=
  ∀ (l : List (String × HVal)) (s : Store),
    (∃ ext, (cloneFields fuel s l).1 = s ++ ext) ∧
    (∀ p ∈ (cloneFields fuel s l).2, p.2.RefsGE s.length) ∧
    (∀ i c, s.length ≤ i → (cloneFields fuel s l).1[i]? = some c → c.RefsGE s.length)

/-- The `userData` shape admitted by `Partial<GameData>` when the input object
carries a `userData` key: exactly the declared sub-object type
`{ played: boolean; personalRating: number; personalStatus?: string;
personalTags?: string[] }`, with unique keys (`Partial` applies only at the
top level, so a present `userData` is complete). -/
def WellTypedUserData (u : JSObj) : Prop :=
  (keysOf u).Nodup ∧
  (∃ b, getProp u "played" = some (.vbool b)) ∧
  (∃ n, getProp u "personalRating" = some (.vnum n)) ∧
  (∀ p ∈ u,
    (p.1 = "played" ∧ ∃ b, p.2 = JSValue.vbool b) ∨
    (p.1 = "personalRating" ∧ ∃ n, p.2 = JSValue.vnum n) ∨
    (p.1 = "personalStatus" ∧
      (p.2 = JSValue.vundef ∨ ∃ s, p.2 = JSValue.vstr s)) ∨
    (p.1 = "personalTags" ∧
      (p.2 = JSValue.vundef ∨ ∃ xs, p.2 = JSValue.varr xs)))

/-- A concrete three-cell store: an array cell, a game-instance object cell
whose `platforms` points at the array and whose `userData` points at a third
object cell. -/
def c6DemoStore : Store :=
  [.harr ["PC"],
   .hobj [("title", .hstr "t"), ("platforms", .href 0), ("userData", .href 2)],
   .hobj [("played", .hbool false)]]

/-!
Lemmas about the JavaScript object model and the clone heap.
-/

@[simp]
theorem getProp_nil (k : String) : getProp [] k = none := rfl

theorem getProp_cons (k' : String) (v : JSValue) (rest : JSObj) (k : String) :
    getProp ((k', v) :: rest) k = if k' = k then some v else getProp rest k := rfl

@[simp]
theorem getProp_setProp_self (o : JSObj) (k : String) (v : JSValue) :
    getProp (setProp o k v) k = some v := by
  induction o with
  | nil => simp [setProp, getProp]
  | cons p rest ih =>
    by_cases h : p.1 = k
    · simp [setProp, h, getProp]
    · simp [setProp, h, getProp, ih]

theorem getProp_setProp_ne (o : JSObj) (k k' : String) (v : JSValue) (h : k' ≠ k) :
    getProp (setProp o k v) k' = getProp o k' := by
  have hkk : ¬ (k = k') := fun hh => h hh.symm
  induction o with
  | nil => simp [setProp, getProp, hkk]
  | cons p rest ih =>
    obtain ⟨k1, v1⟩ := p
    by_cases hp : k1 = k
    · subst hp
      simp [setProp, getProp, hkk]
    · simp [setProp, getProp, hp, ih]

theorem getProp_eq_none_of_not_mem (o : JSObj) (k : String) (h : k ∉ keysOf o) :
    getProp o k = none := by
  induction o with
  | nil => rfl
  | cons p rest ih =>
    simp only [keysOf, List.map_cons, List.mem_cons] at h
    push_neg at h
    have h1 : ¬ (p.1 = k) := fun hh => h.1 hh.symm
    simp only [getProp, if_neg h1]
    exact ih (by simpa [keysOf] using h.2)

theorem mem_of_getProp_eq_some (o : JSObj) (k : String) (v : JSValue)
    (h : getProp o k = some v) : (k, v) ∈ o := by
  induction o with
  | nil => simp [getProp] at h
  | cons p rest ih =>
    obtain ⟨k1, v1⟩ := p
    by_cases hp : k1 = k
    · subst hp
      simp [getProp] at h
      subst h
      exact List.mem_cons_self _ _
    · simp only [getProp, if_neg hp] at h
      exact List.mem_cons_of_mem _ (ih h)

/-- Spread semantics: when the second object has no duplicate keys, a read on
`{...a, ...b}` hits `b` first and falls back to `a`. -/
theorem getProp_spreadAll :
    ∀ (b a : JSObj) (k : String), (keysOf b).Nodup →
      getProp (spreadAll a b) k =
        match getProp b k with
        | some v => some v
        | none => getProp a k
  | [], a, k, _ => by simp [spreadAll, getProp]
  | p :: rest, a, k, hb => by
    have hb2 : (p.1 :: keysOf rest).Nodup := hb
    have hb' : (keysOf rest).Nodup := (List.nodup_cons.mp hb2).2
    have hnm : p.1 ∉ keysOf rest := (List.nodup_cons.mp hb2).1
    have hrec := getProp_spreadAll rest (setProp a p.1 p.2) k hb'
    show getProp (spreadAll (setProp a p.1 p.2) rest) k = _
    rw [hrec]
    by_cases hk : p.1 = k
    · subst hk
      have hn : getProp rest p.1 = none := getProp_eq_none_of_not_mem rest p.1 hnm
      simp [hn, getProp, getProp_setProp_self]
    · rw [getProp_setProp_ne a p.1 k p.2 (fun hh => hk hh.symm)]
      simp [getProp, hk]

@[simp]
theorem getProp_deleteProp_self (o : JSObj) (k : String) :
    getProp (deleteProp o k) k = none := by
  induction o with
  | nil => rfl
  | cons p rest ih =>
    obtain ⟨k1, v1⟩ := p
    by_cases hp : k1 = k
    · simp [deleteProp, hp, ih]
    · simp [deleteProp, hp, getProp, ih]

theorem getProp_deleteProp_ne (o : JSObj) (k k' : String) (h : k' ≠ k) :
    getProp (deleteProp o k) k' = getProp o k' := by
  induction o with
  | nil => rfl
  | cons p rest ih =>
    obtain ⟨k1, v1⟩ := p
    by_cases hp : k1 = k
    · subst hp
      have h1 : ¬ (k1 = k') := fun hh => h (hh ▸ rfl)
      simp [deleteProp, getProp, h1, ih]
    · by_cases hp' : k1 = k'
      · simp [deleteProp, hp, getProp, hp', h]
      · simp [deleteProp, hp, getProp, hp', ih]

theorem hval_refsGE_mono {m n : Nat} (h : n ≤ m) (v : HVal) (hv : v.RefsGE m) :
    v.RefsGE n := by
  cases v
  case href a => exact Nat.le_trans h hv
  all_goals trivial

theorem hcell_refsGE_mono {m n : Nat} (h : n ≤ m) (c : HCell) (hc : c.RefsGE m) :
    c.RefsGE n := by
  cases c with
  | harr _ => trivial
  | hobj fields => exact fun p hp => hval_refsGE_mono h p.2 (hc p hp)

theorem getElem?_append_single {α : Type} (s : List α) (x : α) (i : Nat)
    (h : s.length ≤ i) (c : α) (hc : (s ++ [x])[i]? = some c) :
    i = s.length ∧ c = x := by
  rw [List.getElem?_append_right h] at hc
  rcases hn : i - s.length with _ | m
  · rw [hn] at hc
    simp only [List.getElem?_cons_zero, Option.some.injEq] at hc
    exact ⟨by omega, hc.symm⟩
  · rw [hn] at hc
    simp at hc

theorem cloneFieldsOK_of (fuel : Nat) (h : CloneValOK fuel) : CloneFieldsOK fuel := by
  intro l
  induction l with
  | nil =>
    intro s
    refine ⟨⟨[], by simp [cloneFields]⟩, ?_, ?_⟩
    · intro p hp
      simp [cloneFields] at hp
    · intro i c hi hc
      simp only [cloneFields] at hc
      rw [List.getElem?_eq_none hi] at hc
      cases hc
  | cons hd tl ih =>
    obtain ⟨k, v⟩ := hd
    intro s
    have e : cloneFields fuel s ((k, v) :: tl) =
        ((cloneFields fuel (cloneVal fuel s v).1 tl).1,
         (k, (cloneVal fuel s v).2) :: (cloneFields fuel (cloneVal fuel s v).1 tl).2) := by
      simp [cloneFields]
    obtain ⟨⟨e1, hp1⟩, hpv, hpc⟩ := h s v
    obtain ⟨⟨e2, hq1⟩, hqv, hqc⟩ := ih (cloneVal fuel s v).1
    have hsp : s.length ≤ (cloneVal fuel s v).1.length := by
      rw [hp1]; simp
    refine ⟨⟨e1 ++ e2, ?_⟩, ?_, ?_⟩
    · rw [e]
      rw [hq1, hp1, List.append_assoc]
    · intro p hp
      rw [e] at hp
      rcases List.mem_cons.mp hp with hh | hh
      · rw [hh]
        exact hpv
      · exact hval_refsGE_mono hsp p.2 (hqv p hh)
    · intro i c hi hc
      rw [e] at hc
      by_cases hil : i < (cloneVal fuel s v).1.length
      · rw [hq1, List.getElem?_append_left hil] at hc
        exact hpc i c hi hc
      · exact hcell_refsGE_mono hsp c (hqc i c (by omega) hc)

theorem cloneValOK_zero : CloneValOK 0 := by
  intro s v
  cases v with
  | href a =>
    refine ⟨⟨[.harr []], by simp [cloneVal]⟩, ?_, ?_⟩
    · simp [cloneVal, HVal.RefsGE]
    · intro i c hi hc
      simp only [cloneVal] at hc
      obtain ⟨_, hc2⟩ := getElem?_append_single s (.harr []) i hi c hc
      rw [hc2]
      trivial
  | hstr x =>
    refine ⟨⟨[], by simp [cloneVal]⟩, by simp [cloneVal, HVal.RefsGE], ?_⟩
    intro i c hi hc
    simp only [cloneVal] at hc
    rw [List.getElem?_eq_none hi] at hc
    cases hc
  | hnum n =>
    refine ⟨⟨[], by simp [cloneVal]⟩, by simp [cloneVal, HVal.RefsGE], ?_⟩
    intro i c hi hc
    simp only [cloneVal] at hc
    rw [List.getElem?_eq_none hi] at hc
    cases hc
  | hbool b =>
    refine ⟨⟨[], by simp [cloneVal]⟩, by simp [cloneVal, HVal.RefsGE], ?_⟩
    intro i c hi hc
    simp only [cloneVal] at hc
    rw [List.getElem?_eq_none hi] at hc
    cases hc
  | hundef =>
    refine ⟨⟨[], by simp [cloneVal]⟩, by simp [cloneVal, HVal.RefsGE], ?_⟩
    intro i c hi hc
    simp only [cloneVal] at hc
    rw [List.getElem?_eq_none hi] at hc
    cases hc

theorem cloneValOK_succ (fuel : Nat) (h : CloneFieldsOK fuel) : CloneValOK (fuel + 1) := by
  intro s v
  cases v with
  | href a =>
    rcases hs : s[a]? with _ | cell
    · refine ⟨⟨[.harr []], by simp [cloneVal, hs]⟩, ?_, ?_⟩
      · simp [cloneVal, hs, HVal.RefsGE]
      · intro i c hi hc
        simp only [cloneVal, hs] at hc
        obtain ⟨_, hc2⟩ := getElem?_append_single s (.harr []) i hi c hc
        rw [hc2]
        trivial
    · cases cell with
      | harr xs =>
        refine ⟨⟨[.harr xs], by simp [cloneVal, hs]⟩, ?_, ?_⟩
        · simp [cloneVal, hs, HVal.RefsGE]
        · intro i c hi hc
          simp only [cloneVal, hs] at hc
          obtain ⟨_, hc2⟩ := getElem?_append_single s (.harr xs) i hi c hc
          rw [hc2]
          trivial
      | hobj fields =>
        have e : cloneVal (fuel + 1) s (.href a) =
            ((cloneFields fuel s fields).1 ++ [.hobj (cloneFields fuel s fields).2],
             .href (cloneFields fuel s fields).1.length) := by
          simp [cloneVal, hs]
        obtain ⟨⟨e1, hq1⟩, hqv, hqc⟩ := h fields s
        have hsp : s.length ≤ (cloneFields fuel s fields).1.length := by
          rw [hq1]; simp
        refine ⟨⟨e1 ++ [.hobj (cloneFields fuel s fields).2], ?_⟩, ?_, ?_⟩
        · rw [e]
          rw [hq1, List.append_assoc]
        · rw [e]
          exact hsp
        · intro i c hi hc
          rw [e] at hc
          by_cases hil : i < (cloneFields fuel s fields).1.length
          · rw [List.getElem?_append_left hil] at hc
            exact hqc i c hi hc
          · obtain ⟨_, hc2⟩ := getElem?_append_single _ _ i (by omega) c hc
            rw [hc2]
            exact fun p hp => hqv p hp
  | hstr x =>
    refine ⟨⟨[], by simp [cloneVal]⟩, by simp [cloneVal, HVal.RefsGE], ?_⟩
    intro i c hi hc
    simp only [cloneVal] at hc
    rw [List.getElem?_eq_none hi] at hc
    cases hc
  | hnum n =>
    refine ⟨⟨[], by simp [cloneVal]⟩, by simp [cloneVal, HVal.RefsGE], ?_⟩
    intro i c hi hc
    simp only [cloneVal] at hc
    rw [List.getElem?_eq_none hi] at hc
    cases hc
  | hbool b =>
    refine ⟨⟨[], by simp [cloneVal]⟩, by simp [cloneVal, HVal.RefsGE], ?_⟩
    intro i c hi hc
    simp only [cloneVal] at hc
    rw [List.getElem?_eq_none hi] at hc
    cases hc
  | hundef =>
    refine ⟨⟨[], by simp [cloneVal]⟩, by simp [cloneVal, HVal.RefsGE], ?_⟩
    intro i c hi hc
    simp only [cloneVal] at hc
    rw [List.getElem?_eq_none hi] at hc
    cases hc

theorem cloneValOK (fuel : Nat) : CloneValOK fuel := by
  induction fuel with
  | zero => exact cloneValOK_zero
  | succ n ih => exact cloneValOK_succ n (cloneFieldsOK_of n ih)

theorem cloneFieldsOK (fuel : Nat) : CloneFieldsOK fuel :=
  cloneFieldsOK_of fuel (cloneValOK fuel)

theorem reach_ge_of_cells (s1 : Store) (r n : Nat) (hr : n ≤ r)
    (hcells : ∀ i c, n ≤ i → s1[i]? = some c → c.RefsGE n) :
    ∀ b, Reach s1 r b → n ≤ b := by
  intro b hb
  induction hb with
  | refl => exact hr
  | step a b fields k hreach hcell hmem ih =>
    exact hcells _ _ ih hcell (k, .href _) hmem

/-- Summary of the heap-level `getWithOutUserData`: the copy is a fresh object
cell without a `userData` key, the original store is untouched below its old
length, and every fresh cell refers only to fresh cells. -/
theorem getWithOutUserDataHeap_spec (s : Store) (root : Nat) :
    (∃ fs, (getWithOutUserDataHeap s root).1[(getWithOutUserDataHeap s root).2]? =
        some (.hobj fs) ∧ "userData" ∉ fs.map Prod.fst) ∧
    s.length ≤ (getWithOutUserDataHeap s root).2 ∧
    (∀ a, a < s.length → (getWithOutUserDataHeap s root).1[a]? = s[a]?) ∧
    (∀ i c, s.length ≤ i → (getWithOutUserDataHeap s root).1[i]? = some c →
      c.RefsGE s.length) := by
  have hfilter : ∀ (l : List (String × HVal)),
      "userData" ∉ (l.filter fun q => !(q.1 == "userData")).map Prod.fst := by
    intro l hmem
    obtain ⟨p, hp, hp1⟩ := List.mem_map.mp hmem
    have := (List.mem_filter.mp hp).2
    rw [hp1] at this
    simp at this
  rcases hs : s[root]? with _ | cell
  · have e : getWithOutUserDataHeap s root = (s ++ [.hobj []], s.length) := by
      simp [getWithOutUserDataHeap, hs]
    rw [e]
    refine ⟨⟨[], by simp, by simp⟩, le_refl _, ?_, ?_⟩
    · intro a ha
      exact List.getElem?_append_left ha
    · intro i c hi hc
      obtain ⟨_, hc2⟩ := getElem?_append_single s (.hobj []) i hi c hc
      rw [hc2]
      intro p hp
      simp at hp
  · cases cell with
    | harr xs =>
      have e : getWithOutUserDataHeap s root = (s ++ [.hobj []], s.length) := by
        simp [getWithOutUserDataHeap, hs]
      rw [e]
      refine ⟨⟨[], by simp, by simp⟩, le_refl _, ?_, ?_⟩
      · intro a ha
        exact List.getElem?_append_left ha
      · intro i c hi hc
        obtain ⟨_, hc2⟩ := getElem?_append_single s (.hobj []) i hi c hc
        rw [hc2]
        intro p hp
        simp at hp
    | hobj fields =>
      have e : getWithOutUserDataHeap s root =
          ((cloneFields 2 s fields).1 ++
             [.hobj ((cloneFields 2 s fields).2.filter fun q => !(q.1 == "userData"))],
           (cloneFields 2 s fields).1.length) := by
        simp [getWithOutUserDataHeap, hs]
      obtain ⟨⟨ext, hq1⟩, hqv, hqc⟩ := cloneFieldsOK 2 fields s
      have hsp : s.length ≤ (cloneFields 2 s fields).1.length := by
        rw [hq1]; simp
      rw [e]
      refine ⟨⟨_, List.getElem?_concat_length _ _, hfilter _⟩, hsp, ?_, ?_⟩
      · intro a ha
        rw [List.getElem?_append_left (by omega), hq1,
          List.getElem?_append_left ha]
      · intro i c hi hc
        by_cases hil : i < (cloneFields 2 s fields).1.length
        · rw [List.getElem?_append_left hil] at hc
          exact hqc i c hi hc
        · obtain ⟨_, hc2⟩ := getElem?_append_single _ _ i (by omega) c hc
          rw [hc2]
          intro p hp
          exact hqv p (List.mem_filter.mp hp).1

/-!
Claim theorems.
-/

/-- The key enumeration of the default-constructed Game instance's metadata
object, computed: base-class property order minus `userData`, then the
`userData` keys not already present (only `played`), `tags` staying at its
original position. -/
theorem gameDefaultMetadataKeys_eq :
    gameDefaultMetadataKeys =
      ["type", "subType", "title", "englishTitle", "year", "dataSource", "url", "id",
       "apiTags", "genres", "personalRating", "personalStatus", "personalTags", "tags",
       "onlineRating", "platforms", "developers", "publishers", "music", "image",
       "website", "description", "released", "releaseDate", "played"] := rfl

/-- C1: for every record instance (with a well-formed `userData` object),
`toMetaDataObject()` is exactly the merge of the non-`userData` fields from
`getWithOutUserData()` with the fields of `userData` (the latter taking
precedence), plus a `tags` key carrying `getTags()` joined with `/`. -/
theorem c1_toMetaDataObject_is_merge (g : GameModel)
    (h : (keysOf g.userData).Nodup) (k : String) :
    getProp (toMetaDataObject g) k =
      if k = "tags" then some (.vstr (String.intercalate "/" (getTags g)))
      else
        match getProp g.userData k with
        | some v => some v
        | none => getProp (getWithOutUserData g) k := by
  by_cases hk : k = "tags"
  · subst hk
    simp [toMetaDataObject, getProp_setProp_self]
  · rw [toMetaDataObject, getProp_setProp_ne _ _ _ _ hk,
      getProp_spreadAll g.userData (getWithOutUserData g) k h]
    simp [hk]

/-- Witness for C1 at the default-constructed instance and the key `title`. -/
theorem c1_toMetaDataObject_is_merge_witness :
    (keysOf (mkGameModel []).userData).Nodup ∧
    getProp (toMetaDataObject (mkGameModel [])) "title" =
      (if "title" = "tags"
       then some (.vstr (String.intercalate "/" (getTags (mkGameModel []))))
       else
        match getProp (mkGameModel []).userData "title" with
        | some v => some v
        | none => getProp (getWithOutUserData (mkGameModel [])) "title") :=
  ⟨by decide, c1_toMetaDataObject_is_merge (mkGameModel []) (by decide) "title"⟩

/-- C4: whatever the input object carries (including a wrong `type` value),
the constructed instance's `type` equals the variant's own declared media
kind. -/
theorem c4_type_is_always_own_media_kind (o : JSObj) :
    (mkGameModel o).type = (getMediaType (mkGameModel o)).value := rfl

/-- C10: on every instance — whatever its declared `tags` field or any `tags`
entry inside `userData` holds — the exported `tags` key is exactly
`getTags()` joined with `/` (the constant `media-db/game` for games); the
computed value overwrites both. -/
theorem c10_tags_key_always_joined_getTags (g : GameModel) :
    getProp (toMetaDataObject g) "tags" =
      some (.vstr (String.intercalate "/" (getTags g))) ∧
    String.intercalate "/" (getTags g) = "media-db/game" := by
  constructor
  · simp [toMetaDataObject, getProp_setProp_self]
  · rfl

/-- C9 counterexample: `getSummary()` uses `englishTitle`, not `title` — on an
input with distinct `title` and `englishTitle` the claimed equality fails. -/
theorem c9_counterexample :
    ¬ (getSummary (mkGameModel [("title", JSValue.vstr "Dune"),
          ("englishTitle", JSValue.vstr "Dune EN"), ("year", JSValue.vstr "2021")]) =
        (mkGameModel [("title", JSValue.vstr "Dune"),
          ("englishTitle", JSValue.vstr "Dune EN"), ("year", JSValue.vstr "2021")]).title
        ++ " (" ++
        (mkGameModel [("title", JSValue.vstr "Dune"),
          ("englishTitle", JSValue.vstr "Dune EN"), ("year", JSValue.vstr "2021")]).year
        ++ ")") := by
  decide

/-- C9 (amended): `getSummary()` returns the instance's `englishTitle`
followed by its year in parentheses. -/
theorem c9_getSummary_englishTitle_year (o : JSObj) (e y : String)
    (he : getProp o "englishTitle" = some (.vstr e))
    (hy : getProp o "year" = some (.vstr y)) :
    getSummary (mkGameModel o) = e ++ " (" ++ y ++ ")" := by
  simp [getSummary, mkGameModel, pickStr, he, hy]

/-- Witness for the amended C9. -/
theorem c9_getSummary_englishTitle_year_witness :
    getProp [("englishTitle", JSValue.vstr "B"), ("year", JSValue.vstr "2000")]
        "englishTitle" = some (.vstr "B") ∧
    getProp [("englishTitle", JSValue.vstr "B"), ("year", JSValue.vstr "2000")]
        "year" = some (.vstr "2000") ∧
    getSummary (mkGameModel [("englishTitle", JSValue.vstr "B"),
        ("year", JSValue.vstr "2000")]) = "B" ++ " (" ++ "2000" ++ ")" :=
  ⟨rfl, rfl,
    c9_getSummary_englishTitle_year
      [("englishTitle", JSValue.vstr "B"), ("year", JSValue.vstr "2000")]
      "B" "2000" rfl rfl⟩

/-- C3 counterexample: a legacy input without a `userData` key but with a
top-level `played: true` does migrate into the `userData` sub-object —
`played` ends up `true`, not its declared default `false`. -/
theorem c3_counterexample :
    getProp (mkGameModel [("played", JSValue.vbool true)]).userData "played" =
        some (.vbool true) ∧
    getProp defaultGameUserData "played" = some (.vbool false) :=
  ⟨rfl, rfl⟩

/-- C3 (amended): when the input has no `userData` key, the constructor
migrates each `userData` field from the input's same-named top-level field
(legacy flat layout) — type-compatible top-level values are adopted and only
fields without one keep their declared defaults. -/
theorem c3_no_userData_migrates_from_top (o : JSObj)
    (h : hasOwn o "userData" = false) :
    getProp (mkGameModel o).userData "played" =
        some (.vbool (pickBool o "played" false)) ∧
    getProp (mkGameModel o).userData "personalRating" =
        some (.vnum (pickNum o "personalRating" 0)) ∧
    getProp (mkGameModel o).userData "personalStatus" =
        some (encOptStr (pickOptStr o "personalStatus")) ∧
    getProp (mkGameModel o).userData "personalTags" =
        some (encOptArr (pickOptArr o "personalTags")) := by
  simp only [mkGameModel, h, Bool.false_eq_true, if_false]
  refine ⟨rfl, ?_, ?_, ?_⟩ <;> simp [migrateGameUserDataFromTop, getProp]

/-- Witness for the amended C3 at the legacy input `{played: true}`. -/
theorem c3_no_userData_migrates_from_top_witness :
    hasOwn [("played", JSValue.vbool true)] "userData" = false ∧
    getProp (mkGameModel [("played", JSValue.vbool true)]).userData "played" =
      some (.vbool (pickBool [("played", JSValue.vbool true)] "played" false)) :=
  ⟨rfl, (c3_no_userData_migrates_from_top [("played", JSValue.vbool true)] rfl).1⟩

/-- C7 counterexample: the proxy adapter's `getById` does not raise an error
on the unknown Bangumi discriminant `5` — it silently falls back to the
Series variant and returns a model. -/
theorem c7_counterexample :
    bangumiProxyGetByIdModel 5 "" 0 = Except.ok MediaType.series := rfl

set_option maxHeartbeats 4000000 in
/-- The first selection switch of the proxy `getById` only ever selects
movie, series, book, music release or game — except at discriminant `4` with
the board-game platform, the single way to select `boardgame`. -/
theorem bangumiProxySelect_fst_cases (t : Int) (p : String) (eps : Int) :
    (bangumiProxySelect t p eps).1 = MediaType.movie ∨
    (bangumiProxySelect t p eps).1 = MediaType.series ∨
    (bangumiProxySelect t p eps).1 = MediaType.book ∨
    (bangumiProxySelect t p eps).1 = MediaType.musicRelease ∨
    (bangumiProxySelect t p eps).1 = MediaType.game ∨
    ((bangumiProxySelect t p eps).1 = MediaType.boardgame ∧
      t = 4 ∧ p = "桌游") := by
  rw [bangumiProxySelect]
  by_cases h1 : t = 1
  · rw [if_pos h1]
    simp
  rw [if_neg h1]
  by_cases h2 : t = 2
  · rw [if_pos h2]
    split_ifs <;> simp
  rw [if_neg h2]
  by_cases h3 : t = 3
  · rw [if_pos h3]
    simp
  rw [if_neg h3]
  by_cases h4 : t = 4
  · rw [if_pos h4]
    split_ifs with hp1 hp2 hp3
    · simp
    · simp
    · exact Or.inr (Or.inr (Or.inr (Or.inr (Or.inr ⟨rfl, h4, hp3⟩))))
    · simp
  rw [if_neg h4]
  by_cases h6 : t = 6
  · rw [if_pos h6]
    by_cases he : eps = 1
    · simp [he]
    · by_cases hd : p = "电影"
      · simp [he, hd, apply_ite Prod.fst]
      · simp [he, hd, apply_ite Prod.fst]
  · rw [if_neg h6]
    simp

/-- C7 (amended): the legacy `BangumiAPI.getById` surfaces every discriminant
outside book/anime/game as an error; the proxy adapter's `getById` instead
defaults unknown discriminants to Series and returns a model, raising an
error exactly when the selected kind has no construction case — which happens
only at discriminant `4` with the board-game platform. -/
theorem c7_unknown_kind_handling :
    (∀ rtype category : Int, rtype ≠ 1 → rtype ≠ 2 → rtype ≠ 4 →
      ∃ e, bangumiLegacyGetByIdType rtype category = .error e) ∧
    (∀ (t : Int) (p : String) (eps : Int),
      t ≠ 1 → t ≠ 2 → t ≠ 3 → t ≠ 4 → t ≠ 6 →
      bangumiProxyGetByIdModel t p eps = .ok .series) ∧
    (∀ eps : Int, bangumiProxyGetByIdModel 4 "桌游" eps =
      .error "MDB | BangumiAPI | Unrecognized or unsupported media type") ∧
    (∀ (t : Int) (p : String) (eps : Int) (e : String),
      bangumiProxyGetByIdModel t p eps = .error e → t = 4 ∧ p = "桌游") := by
  refine ⟨?_, ?_, ?_, ?_⟩
  · intro rtype category h1 h2 h4
    by_cases h3 : rtype = 3
    · exact ⟨"MDB | Music type not supported",
        by simp [bangumiLegacyGetByIdType, h1, h2, h3, h4]⟩
    · by_cases h6 : rtype = 6
      · exact ⟨"MDB | Real (live-action) type not supported",
          by simp [bangumiLegacyGetByIdType, h1, h2, h3, h4, h6]⟩
      · exact ⟨"MDB | Unknown media type",
          by simp [bangumiLegacyGetByIdType, h1, h2, h3, h4, h6]⟩
  · intro t p eps h1 h2 h3 h4 h6
    simp [bangumiProxyGetByIdModel, bangumiProxySelect, h1, h2, h3, h4, h6]
  · intro eps
    simp [bangumiProxyGetByIdModel, bangumiProxySelect]
  · intro t p eps e herr
    rcases bangumiProxySelect_fst_cases t p eps with h | h | h | h | h | ⟨h, ht, hp⟩
    · simp only [bangumiProxyGetByIdModel, h] at herr
      exact Except.noConfusion herr
    · simp only [bangumiProxyGetByIdModel, h] at herr
      exact Except.noConfusion herr
    · simp only [bangumiProxyGetByIdModel, h] at herr
      exact Except.noConfusion herr
    · simp only [bangumiProxyGetByIdModel, h] at herr
      exact Except.noConfusion herr
    · simp only [bangumiProxyGetByIdModel, h] at herr
      exact Except.noConfusion herr
    · exact ⟨ht, hp⟩

/-- Witness for the amended C7 at the discriminants `3` (legacy error), `7`
(proxy silent Series fallback) and the board-game platform (proxy error,
and the only erroring selection). -/
theorem c7_unknown_kind_handling_witness :
    (∃ e, bangumiLegacyGetByIdType 3 0 = .error e) ∧
    bangumiProxyGetByIdModel 7 "x" 2 = .ok .series ∧
    bangumiProxyGetByIdModel 4 "桌游" 1 =
      .error "MDB | BangumiAPI | Unrecognized or unsupported media type" ∧
    ((4 : Int) = 4 ∧ "桌游" = "桌游") :=
  ⟨c7_unknown_kind_handling.1 3 0 (by decide) (by decide) (by decide),
   c7_unknown_kind_handling.2.1 7 "x" 2 (by decide) (by decide) (by decide)
     (by decide) (by decide),
   c7_unknown_kind_handling.2.2.1 1,
   c7_unknown_kind_handling.2.2.2 4 "桌游" 1
     "MDB | BangumiAPI | Unrecognized or unsupported media type" rfl⟩

/-- C5: the default `PropertyMappingModel` built by `getDefaultSettings` for a
media kind has exactly one `PropertyMapping` per key of the kind's
default-constructed instance's `toMetaDataObject()`, in enumeration order,
each with `mapping = Default`, `newKey = ''`, and `locked` exactly on the
fixed identity keys; for the Game kind the enumeration is the 25-key list
recorded in `gameDefaultMetadataKeys_eq`. -/
theorem c5_default_property_mappings (t : String) (metadataKeys : List String)
    (i : Nat) (k : String) (hk : metadataKeys[i]? = some k) :
    (defaultPropertyMappingModel t metadataKeys).properties.length =
      metadataKeys.length ∧
    (defaultPropertyMappingModel t metadataKeys).properties[i]? =
      some { key := k, newKey := "", mapping := .Default,
             locked := lockedPropertyMappings.contains k } ∧
    keysOf (toMetaDataObject (mkGameModel [])) = gameDefaultMetadataKeys := by
  refine ⟨by simp [defaultPropertyMappingModel], ?_, rfl⟩
  simp [defaultPropertyMappingModel, hk]

/-- Witness for C5: the Game kind's first metadata key `type` becomes a
locked `Default` mapping with empty `newKey`. -/
theorem c5_default_property_mappings_witness :
    gameDefaultMetadataKeys[0]? = some "type" ∧
    (defaultPropertyMappingModel "game" gameDefaultMetadataKeys).properties[0]? =
      some { key := "type", newKey := "", mapping := .Default,
             locked := lockedPropertyMappings.contains "type" } :=
  ⟨rfl, (c5_default_property_mappings "game" gameDefaultMetadataKeys 0 "type" rfl).2.1⟩

/-- C8: re-constructing a variant instance from its own fields yields an
identical instance, `userData` included — migration is idempotent on
fully-populated (constructed) instances. -/
theorem c8_migration_idempotent (r : GameModel)
    (h : r.type = MediaType.game.value) :
    mkGameModel (gameInstanceObj r) = r := by
  obtain ⟨t, sub, ti, et, y, ds, u, idv, ata, ge, ud, pr, ps, pt, tg, onr,
    pl, dev, pub, mu, im, w, de, rel, rd⟩ := r
  have ht : t = MediaType.game.value := h
  subst ht
  cases pr <;> cases ps <;> cases pt <;> rfl

/-- Witness for C8 at the default-constructed instance. -/
theorem c8_migration_idempotent_witness :
    (mkGameModel []).type = MediaType.game.value ∧
    mkGameModel (gameInstanceObj (mkGameModel [])) = mkGameModel [] :=
  ⟨rfl, c8_migration_idempotent (mkGameModel []) rfl⟩

/-- The declared defaults of `userData` keep only `personalStatus` and
`personalTags` as `undefined`, and `played` is present. -/
theorem defaultGameUserData_ok :
    (keysOf defaultGameUserData).Nodup ∧
    (∃ b, getProp defaultGameUserData "played" = some (.vbool b)) ∧
    (∀ p ∈ defaultGameUserData, p.2 = JSValue.vundef →
      p.1 = "personalStatus" ∨ p.1 = "personalTags") := by
  refine ⟨by decide, ⟨false, rfl⟩, ?_⟩
  intro p hp hpu
  simp only [defaultGameUserData, List.mem_cons, List.not_mem_nil, or_false] at hp
  rcases hp with h | h | h | h <;> subst h
  · exact JSValue.noConfusion hpu
  · exact JSValue.noConfusion hpu
  · exact Or.inl rfl
  · exact Or.inr rfl

/-- The legacy top-level `userData` migration keeps only `personalStatus` and
`personalTags` possibly `undefined`, and `played` is present. -/
theorem migrateGameUserDataFromTop_ok (o : JSObj) :
    (keysOf (migrateGameUserDataFromTop o)).Nodup ∧
    (∃ b, getProp (migrateGameUserDataFromTop o) "played" = some (.vbool b)) ∧
    (∀ p ∈ migrateGameUserDataFromTop o, p.2 = JSValue.vundef →
      p.1 = "personalStatus" ∨ p.1 = "personalTags") := by
  refine ⟨?_, ⟨pickBool o "played" false, rfl⟩, ?_⟩
  · show (["played", "personalRating", "personalStatus", "personalTags"] :
      List String).Nodup
    decide
  · intro p hp hpu
    simp only [migrateGameUserDataFromTop, List.mem_cons, List.not_mem_nil,
      or_false] at hp
    rcases hp with h | h | h | h <;> subst h
    · exact JSValue.noConfusion hpu
    · exact JSValue.noConfusion hpu
    · exact Or.inl rfl
    · exact Or.inr rfl

/-- The `userData` of any constructed instance whose input is well-typed (in
the sense of `Partial<GameData>`) has unique keys, carries `played`, and holds
`undefined` only at `personalStatus` or `personalTags`. -/
theorem mkGameModel_userData_ok (o : JSObj)
    (hud : ∀ u, getProp o "userData" = some (.vobj u) → WellTypedUserData u) :
    (keysOf (mkGameModel o).userData).Nodup ∧
    (∃ b, getProp (mkGameModel o).userData "played" = some (.vbool b)) ∧
    (∀ p ∈ (mkGameModel o).userData, p.2 = JSValue.vundef →
      p.1 = "personalStatus" ∨ p.1 = "personalTags") := by
  have hud_eq : (mkGameModel o).userData =
      (if hasOwn o "userData" then pickObj o "userData" defaultGameUserData
       else migrateGameUserDataFromTop o) := rfl
  rw [hud_eq]
  by_cases h : hasOwn o "userData"
  · rw [if_pos h]
    rcases hget : getProp o "userData" with _ | v
    · rw [hasOwn, hget] at h
      simp at h
    · cases v with
      | vobj u =>
        have hw := hud u hget
        have hpick : pickObj o "userData" defaultGameUserData = u := by
          rw [pickObj, hget]
        rw [hpick]
        refine ⟨hw.1, hw.2.1, ?_⟩
        intro p hp hpu
        rcases hw.2.2.2 p hp with ⟨_, b, hb⟩ | ⟨_, n, hn⟩ | ⟨h1, _⟩ | ⟨h1, _⟩
        · rw [hpu] at hb
          exact JSValue.noConfusion hb
        · rw [hpu] at hn
          exact JSValue.noConfusion hn
        · exact Or.inl h1
        · exact Or.inr h1
      | vstr s =>
        rw [show pickObj o "userData" defaultGameUserData = defaultGameUserData
          from by rw [pickObj, hget]]
        exact defaultGameUserData_ok
      | vnum n =>
        rw [show pickObj o "userData" defaultGameUserData = defaultGameUserData
          from by rw [pickObj, hget]]
        exact defaultGameUserData_ok
      | vbool b =>
        rw [show pickObj o "userData" defaultGameUserData = defaultGameUserData
          from by rw [pickObj, hget]]
        exact defaultGameUserData_ok
      | varr xs =>
        rw [show pickObj o "userData" defaultGameUserData = defaultGameUserData
          from by rw [pickObj, hget]]
        exact defaultGameUserData_ok
      | vundef =>
        rw [show pickObj o "userData" defaultGameUserData = defaultGameUserData
          from by rw [pickObj, hget]]
        exact defaultGameUserData_ok
      | vnull =>
        rw [show pickObj o "userData" defaultGameUserData = defaultGameUserData
          from by rw [pickObj, hget]]
        exact defaultGameUserData_ok
  · rw [if_neg h]
    exact migrateGameUserDataFromTop_ok o

set_option maxHeartbeats 1600000 in
/-- On the non-`userData` side of the export, `undefined` can sit only under
the three optional personal keys. -/
theorem getWithOutUserData_vundef_only_personal (g : GameModel) (k : String)
    (h : getProp (getWithOutUserData g) k = some JSValue.vundef) :
    k = "personalRating" ∨ k = "personalStatus" ∨ k = "personalTags" := by
  have h2 : getProp
      [("type", JSValue.vstr g.type), ("subType", JSValue.vstr g.subType),
       ("title", JSValue.vstr g.title), ("englishTitle", JSValue.vstr g.englishTitle),
       ("year", JSValue.vstr g.year), ("dataSource", JSValue.vstr g.dataSource),
       ("url", JSValue.vstr g.url), ("id", JSValue.vstr g.id),
       ("apiTags", JSValue.varr g.apiTags), ("genres", JSValue.varr g.genres),
       ("personalRating", encOptStr g.personalRating),
       ("personalStatus", encOptStr g.personalStatus),
       ("personalTags", encOptArr g.personalTags), ("tags", JSValue.varr g.tags),
       ("onlineRating", JSValue.vnum g.onlineRating),
       ("platforms", JSValue.varr g.platforms),
       ("developers", JSValue.varr g.developers),
       ("publishers", JSValue.varr g.publishers), ("music", JSValue.varr g.music),
       ("image", JSValue.vstr g.image), ("website", JSValue.vstr g.website),
       ("description", JSValue.vstr g.description),
       ("released", JSValue.vbool g.released),
       ("releaseDate", JSValue.vstr g.releaseDate)] k = some JSValue.vundef := h
  have hmem := mem_of_getProp_eq_some _ _ _ h2
  simp only [List.mem_cons, List.not_mem_nil, or_false, Prod.mk.injEq] at hmem
  rcases hmem with ⟨hk1, hv1⟩ | ⟨hk1, hv1⟩ | ⟨hk1, hv1⟩ | ⟨hk1, hv1⟩ | ⟨hk1, hv1⟩ |
    ⟨hk1, hv1⟩ | ⟨hk1, hv1⟩ | ⟨hk1, hv1⟩ | ⟨hk1, hv1⟩ | ⟨hk1, hv1⟩ | ⟨hk1, hv1⟩ |
    ⟨hk1, hv1⟩ | ⟨hk1, hv1⟩ | ⟨hk1, hv1⟩ | ⟨hk1, hv1⟩ | ⟨hk1, hv1⟩ | ⟨hk1, hv1⟩ |
    ⟨hk1, hv1⟩ | ⟨hk1, hv1⟩ | ⟨hk1, hv1⟩ | ⟨hk1, hv1⟩ | ⟨hk1, hv1⟩ | ⟨hk1, hv1⟩ |
    ⟨hk1, hv1⟩ <;>
    first
    | exact JSValue.noConfusion hv1
    | exact Or.inl hk1
    | exact Or.inr (Or.inl hk1)
    | exact Or.inr (Or.inr hk1)

/-- If a non-`tags` key is served by `userData`, the export has it. -/
theorem isSome_meta_userData_side (g : GameModel)
    (hnod : (keysOf g.userData).Nodup) (k : String) (hk : ¬ k = "tags")
    (hu : (getProp g.userData k).isSome) :
    (getProp (toMetaDataObject g) k).isSome := by
  rw [toMetaDataObject, getProp_setProp_ne _ _ _ _ hk,
    getProp_spreadAll g.userData (getWithOutUserData g) k hnod]
  rcases hc : getProp g.userData k with _ | u
  · rw [hc] at hu
    simp at hu
  · rfl

/-- If a non-`tags` key is served by the non-`userData` fields, the export has
it. -/
theorem isSome_meta_without_side (g : GameModel)
    (hnod : (keysOf g.userData).Nodup) (k : String) (hk : ¬ k = "tags")
    (hw : (getProp (getWithOutUserData g) k).isSome) :
    (getProp (toMetaDataObject g) k).isSome := by
  rw [toMetaDataObject, getProp_setProp_ne _ _ _ _ hk,
    getProp_spreadAll g.userData (getWithOutUserData g) k hnod]
  rcases hc : getProp g.userData k with _ | u
  · exact hw
  · rfl

/-- C2 counterexample: on the empty partial input, the export still carries
`personalStatus` with value `undefined` — `undefined` does leak into the
output. -/
theorem c2_counterexample :
    getProp (toMetaDataObject (mkGameModel [])) "personalStatus" =
      some JSValue.vundef := rfl

set_option maxHeartbeats 1600000 in
/-- C2 (amended): the export of a constructed instance contains every field
declared by the default instance, and a key can carry `undefined` only if it
is one of the optional personal fields whose declared default is `undefined`
(`personalRating`, `personalStatus`, `personalTags`). -/
theorem c2_every_declared_field_undefined_only_personal (o : JSObj)
    (hud : ∀ u, getProp o "userData" = some (.vobj u) → WellTypedUserData u) :
    (∀ k, k ∈ gameDefaultMetadataKeys →
      (getProp (toMetaDataObject (mkGameModel o)) k).isSome) ∧
    (∀ k v, getProp (toMetaDataObject (mkGameModel o)) k = some v →
      v = JSValue.vundef →
      k = "personalRating" ∨ k = "personalStatus" ∨ k = "personalTags") := by
  obtain ⟨hnod, ⟨bb, hplayed⟩, hundefonly⟩ := mkGameModel_userData_ok o hud
  constructor
  · intro k hk
    rw [gameDefaultMetadataKeys_eq] at hk
    simp only [List.mem_cons, List.not_mem_nil, or_false] at hk
    rcases hk with rfl|rfl|rfl|rfl|rfl|rfl|rfl|rfl|rfl|rfl|rfl|rfl|rfl|rfl|rfl|
      rfl|rfl|rfl|rfl|rfl|rfl|rfl|rfl|rfl|rfl
    all_goals first
      | exact isSome_meta_userData_side _ hnod _ (by decide)
          (by rw [hplayed]; rfl)
      | (rw [toMetaDataObject, getProp_setProp_self]; rfl)
      | exact isSome_meta_without_side _ hnod _ (by decide) rfl
  · intro k v hm hv
    by_cases hk : k = "tags"
    · subst hk
      rw [toMetaDataObject, getProp_setProp_self] at hm
      have hj := Option.some.inj hm
      rw [hv] at hj
      exact JSValue.noConfusion hj
    · rw [toMetaDataObject, getProp_setProp_ne _ _ _ _ hk,
        getProp_spreadAll _ _ _ hnod] at hm
      rcases hc : getProp (mkGameModel o).userData k with _ | u
      · rw [hc] at hm
        rw [hv] at hm
        exact getWithOutUserData_vundef_only_personal _ _ hm
      · rw [hc] at hm
        have hu : u = v := Option.some.inj hm
        have hmem := mem_of_getProp_eq_some _ _ _ hc
        rcases hundefonly (k, u) hmem (by rw [hu, hv]) with h1 | h1
        · exact Or.inr (Or.inl h1)
        · exact Or.inr (Or.inr h1)

/-- Witness for the amended C2 at the empty partial input. -/
theorem c2_every_declared_field_undefined_only_personal_witness :
    (∀ k, k ∈ gameDefaultMetadataKeys →
      (getProp (toMetaDataObject (mkGameModel [])) k).isSome) ∧
    (∀ k v, getProp (toMetaDataObject (mkGameModel [])) k = some v →
      v = JSValue.vundef →
      k = "personalRating" ∨ k = "personalStatus" ∨ k = "personalTags") :=
  c2_every_declared_field_undefined_only_personal [] (fun _ h => nomatch h)

/-- C6: the heap-level `getWithOutUserData()` produces a fresh object with no
`userData` key, and writing any new content into any cell reachable from the
copy — its own fields or any of its nested sequences — leaves every cell of
the original store, hence every field of the original instance, unchanged. -/
theorem c6_getWithOutUserData_deep_copy (s : Store) (root : Nat) :
    (∃ fs, (getWithOutUserDataHeap s root).1[(getWithOutUserDataHeap s root).2]? =
        some (.hobj fs) ∧ "userData" ∉ fs.map Prod.fst) ∧
    (∀ (b : Nat) (c : HCell) (a : Nat),
      Reach (getWithOutUserDataHeap s root).1 (getWithOutUserDataHeap s root).2 b →
      a < s.length →
      ((getWithOutUserDataHeap s root).1.set b c)[a]? = s[a]?) := by
  obtain ⟨hroot, hge, hbelow, hcells⟩ := getWithOutUserDataHeap_spec s root
  refine ⟨hroot, ?_⟩
  intro b c a hreach ha
  have hb : s.length ≤ b :=
    reach_ge_of_cells _ _ _ hge hcells b hreach
  rw [List.getElem?_set_ne (by omega)]
  exact hbelow a ha

/-- Witness for C6: a three-cell store holding a game instance with a nested
sequence and a `userData` object; overwriting the copy's root cell leaves the
original's array cell untouched. -/
theorem c6_getWithOutUserData_deep_copy_witness :
    Reach (getWithOutUserDataHeap c6DemoStore 1).1
      (getWithOutUserDataHeap c6DemoStore 1).2
      (getWithOutUserDataHeap c6DemoStore 1).2 ∧
    0 < c6DemoStore.length ∧
    ((getWithOutUserDataHeap c6DemoStore 1).1.set
        (getWithOutUserDataHeap c6DemoStore 1).2 (.hobj []))[0]? =
      c6DemoStore[0]? :=
  ⟨Reach.refl _, by decide,
   (c6_getWithOutUserData_deep_copy c6DemoStore 1).2
     (getWithOutUserDataHeap c6DemoStore 1).2 (.hobj []) 0
     (Reach.refl _) (by decide)⟩

end MediaDb

